import Mathlib

/-!
Shallow embedding of `crates/nostr-sdk/src/relay.rs` (relay connection actor,
relay pool orchestrator, pool aggregator task) together with theorems checking
the natural-language specification against it.

External collaborators (the `url` crate, `crossbeam_channel`, the websocket
transport, the `nostr_sdk_base` event type and the `crate::subscription`
tracker, which is not part of the provided sources) are modelled at their
interface boundary; every such modelling is flagged in the corresponding doc
comment.
-/

namespace NostrSdkRelay

/-- Status of a relay connection, `RelayStatus` in relay.rs (lines 20-25):
exactly the three constructors `Disconnected`, `Connected`, `Connecting`. -/
inductive RelayStatus where
  | disconnected
  | connected
  | connecting
  deriving DecidableEq, Repr

/-- A tag of a nostr event, kept at its contract boundary: the aggregator only
ever calls `.content()` on a tag, so a tag is modelled by that string. -/
structure Tag where
  content : String
  deriving DecidableEq, Repr

/-- A nostr event (`nostr_sdk_base::Event`) at its contract boundary: the code
uses `event.id.to_string()` (identity key), `event.pubkey` (author key, compared
with a public key and with its string form; both modelled as `String`),
`event.tags` (ordered, `tags[0].content()` is read by the purge), and
`event.verify()` whose outcome is modelled by the boolean field `sigValid`. -/
structure NostrEvent where
  id : String
  pubkey : String
  tags : List Tag
  sigValid : Bool
  deriving DecidableEq, Repr

/-- Inbound relay-to-client message (`nostr_sdk_base::RelayMessage`) at its
boundary: the aggregator pattern-matches only the `Event` variant; every other
variant falls through the `if let`, collapsed here into `otherMsg`. -/
inductive RelayMessage where
  | event (subscriptionId : String) (ev : NostrEvent)
  | otherMsg
  deriving DecidableEq, Repr

/-- Messages sent by relay actors to the pool task, `RelayPoolEvent` in
relay.rs (lines 222-228). `Keys` is modelled by its public key string (the code
uses `contact_keys.public_key` and `contact_keys.public_key.to_string()`,
identified here). `Url` is modelled as its string form. -/
inductive RelayPoolEvent where
  | relayDisconnected (url : String)
  | receivedMsg (relayUrl : String) (msg : RelayMessage)
  | removeContactEvents (publicKey : String)
  | eventSent (ev : NostrEvent)
  deriving DecidableEq, Repr

/-- Outward notifications, `RelayPoolNotifications` in relay.rs (lines 230-234). -/
inductive RelayPoolNotifications where
  | receivedEvent (ev : NostrEvent)
  | relayDisconnected (url : String)
  deriving DecidableEq, Repr

/-- Association-list model of `std::collections::HashMap<String, V>`: lookup of
a key (`HashMap::get`-style observation used to state properties). -/
def hmFind {V : Type} : List (String × V) → String → Option V
  | [], _ => none
  | (k', v) :: rest, k => if k' = k then some v else hmFind rest k

/-- Association-list model of `HashMap::insert`: stores `v` under `k` and
returns the previous value under `k` (the code branches on `.is_none()` of this
return value). -/
def hmInsert {V : Type} : List (String × V) → String → V → Option V × List (String × V)
  | [], k, v => (none, [(k, v)])
  | (k', v') :: rest, k, v =>
    if k' = k then (some v', (k, v) :: rest)
    else
      let r := hmInsert rest k v
      (r.1, (k', v') :: r.2)

/-- Association-list model of `HashMap::remove` keyed by `String`. -/
def hmRemove {V : Type} : List (String × V) → String → List (String × V)
  | [], _ => []
  | (k', v') :: rest, k => if k' = k then rest else (k', v') :: hmRemove rest k

/-- State of the aggregator task, `RelayPoolTask` in relay.rs (lines 236-240):
the dedup cache `events : HashMap<String, Box<NostrEvent>>` (the channel ends
are effects, not state). -/
structure RelayPoolTaskState where
  events : List (String × NostrEvent)
  deriving DecidableEq, Repr

/-- The `events.retain` closure of `RelayPoolEvent::RemoveContactEvents`
(relay.rs lines 292-297): keep `v` iff
`v.pubkey != keys.public_key && v.tags[0].content() != keys.public_key.to_string()`.
Rust `&&` short-circuits, so `v.tags[0]` is evaluated only when the first
conjunct is true; the unguarded index panics on an empty tag list, modelled by
`none` for the whole retain. -/
def purgeRetain (pk : String) : List (String × NostrEvent) → Option (List (String × NostrEvent))
  | [] => some []
  | (k, v) :: rest =>
    if v.pubkey ≠ pk then
      match v.tags with
      | [] => none
      | t0 :: _ =>
        if t0.content ≠ pk then
          match purgeRetain pk rest with
          | none => none
          | some rest' => some ((k, v) :: rest')
        else purgeRetain pk rest
    else purgeRetain pk rest

/-- One step of the aggregator, `RelayPoolTask::handle_message` (relay.rs lines
261-307). Returns the new state and the list of notifications whose send was
attempted (a failed `notification_sender.send` is only logged, so the attempt
is the observable emission); `none` models a panic (only the unguarded
`v.tags[0]` in the purge can panic). -/
def handleMessage (s : RelayPoolTaskState) (msg : RelayPoolEvent) :
    Option (RelayPoolTaskState × List RelayPoolNotifications) :=
  match msg with
  | RelayPoolEvent.receivedMsg _ m =>
    match m with
    | RelayMessage.event _ ev =>
      if ev.sigValid then
        let r := hmInsert s.events ev.id ev
        if r.1.isNone then
          some (⟨r.2⟩, [RelayPoolNotifications.receivedEvent ev])
        else
          some (⟨r.2⟩, [])
      else some (s, [])
    | RelayMessage.otherMsg => some (s, [])
  | RelayPoolEvent.eventSent ev =>
    some (⟨(hmInsert s.events ev.id ev).2⟩, [])
  | RelayPoolEvent.removeContactEvents pk =>
    match purgeRetain pk s.events with
    | none => none
    | some events' => some (⟨events'⟩, [])
  | RelayPoolEvent.relayDisconnected url =>
    some (s, [RelayPoolNotifications.relayDisconnected url])

/-- The aggregator loop `RelayPoolTask::run` restricted to a finite prefix of
its input channel: handle each pool event in order, accumulating the emitted
notifications; `none` propagates a panic. -/
def processEvents (s : RelayPoolTaskState) :
    List RelayPoolEvent → Option (RelayPoolTaskState × List RelayPoolNotifications)
  | [] => some (s, [])
  | m :: rest =>
    match handleMessage s m with
    | none => none
    | some (s', ns) =>
      match processEvents s' rest with
      | none => none
      | some (s'', ns') => some (s'', ns ++ ns')

/-- Keep-predicate realized by a completed purge: an entry survives the retain
iff its author key differs from the purged key and its first tag's content
differs from the purged key (a surviving entry necessarily has a first tag). -/
def purgeKeep (pk : String) (v : NostrEvent) : Bool :=
  decide (v.pubkey ≠ pk) &&
    (match v.tags with
     | [] => false
     | t0 :: _ => decide (t0.content ≠ pk))

/-- A sample event used by concrete witnesses. -/
def evA : NostrEvent := ⟨"id-a", "pk-alice", [⟨"pk-bob"⟩], true⟩

/-- Sample events used by concrete witnesses: one authored by the purged key,
one whose first tag carries the purged key, one unrelated. -/
def evB : NostrEvent := ⟨"id-b", "pk-bob", [⟨"pk-alice"⟩], true⟩

def evC : NostrEvent := ⟨"id-c", "pk-carol", [⟨"pk-dave"⟩], true⟩

def evNoTags : NostrEvent := ⟨"id-z", "pk-alice", [], true⟩

/-- Pool-level error taxonomy. The code returns `anyhow` string errors; the
two error sites are `Relay::new`'s URL parse failure (`MalformedUrl`) and
`send_event`'s `anyhow!("No relay connected")` (`NoRelaysConnected`); the
spec's `DuplicateRelay` is included so the claim about it can be stated. -/
inductive PoolError where
  | malformedUrl
  | duplicateRelay
  | noRelaysConnected
  deriving DecidableEq, Repr

/-- Boundary model of the external `url` crate's `Url::parse` as used by
`Relay::new`: parsing succeeds exactly when the string carries a scheme
separator, and the parsed URL is kept in its string form. -/
def urlParse (s : String) : Option String :=
  if s.data.contains ':' then some s else none

/-- A relay connection handle (`Relay` in relay.rs, lines 33-41) at the
granularity the pool operations observe: its parsed URL and its status cell.
The command-channel ends are modelled as effects of the operations. -/
structure Relay where
  url : String
  status : RelayStatus
  deriving DecidableEq, Repr

/-- `Relay::new` (relay.rs lines 44-59): parses the URL (propagating the parse
failure) and starts with status `Disconnected`. -/
def relayNew (url : String) : Except PoolError Relay :=
  match urlParse url with
  | none => Except.error PoolError.malformedUrl
  | some u => Except.ok ⟨u, RelayStatus.disconnected⟩

/-- Client-to-relay protocol messages (`nostr_sdk_base::ClientMessage`) at the
boundary: the code constructs `new_event`, `new_req` (channel id and filter
set) and `close` (channel id). Channel ids are kept as the tracker's numeric
identifier rather than its string form; filters are opaque payloads. -/
inductive ClientMessage where
  | newEvent (ev : NostrEvent)
  | newReq (channelId : Nat) (filters : List String)
  | close (channelId : Nat)
  deriving DecidableEq, Repr

/-- Commands sent into a relay actor's bounded command queue, `RelayEvent` in
relay.rs (lines 27-31). -/
inductive RelayEvent where
  | sendMsg (msg : ClientMessage)
  | close
  deriving DecidableEq, Repr

/-- Modelled from the spec: `crate::subscription::Subscription` is not among
the provided sources. Per spec sections 3 and 4.4 the tracker holds the
current filter set (replaced wholesale by `update_filters`) and a map from
relay URL to at most one subscription channel identifier; `get_channel` reuses
the tracked identifier for a URL or allocates a fresh one, `remove_channel`
removes and returns the tracked identifier, if any. -/
structure Subscription where
  filters : List String
  channels : List (String × Nat)
  nextId : Nat
  deriving DecidableEq, Repr

/-- Modelled from the spec: `Subscription::get_channel` (reuse or allocate). -/
def Subscription.getChannel (sub : Subscription) (url : String) : Nat × Subscription :=
  match hmFind sub.channels url with
  | some cid => (cid, sub)
  | none =>
    (sub.nextId,
      { sub with
        channels := (hmInsert sub.channels url sub.nextId).2
        nextId := sub.nextId + 1 })

/-- Modelled from the spec: `Subscription::update_filters` replaces the filter
set wholesale. -/
def Subscription.updateFilters (sub : Subscription) (filters : List String) : Subscription :=
  { sub with filters := filters }

/-- Modelled from the spec: `Subscription::remove_channel` removes and returns
the channel tracked for the URL, if any. -/
def Subscription.removeChannel (sub : Subscription) (url : String) :
    Option Nat × Subscription :=
  match hmFind sub.channels url with
  | some cid => (some cid, { sub with channels := hmRemove sub.channels url })
  | none => (none, sub)

/-- The pool orchestrator state (`RelayPool` in relay.rs lines 310-315): the
URL-keyed relay map and the subscription tracker; the aggregator channel ends
are modelled as effects. -/
structure RelayPool where
  relays : List (String × Relay)
  subscription : Subscription
  deriving DecidableEq, Repr

/-- `RelayPool::add_relay` (relay.rs lines 368-372): builds a fresh relay for
the URL and inserts it under the URL key, unconditionally overwriting any
existing entry; the only error is the URL parse failure. -/
def addRelay (p : RelayPool) (url : String) : Except PoolError RelayPool :=
  match relayNew url with
  | Except.error e => Except.error e
  | Except.ok relay => Except.ok { p with relays := (hmInsert p.relays url relay).2 }

/-- `RelayPool::send_event` (relay.rs lines 391-412): on an empty relay map
returns the "No relay connected" error before anything is sent; otherwise
reports `EventSent` to the aggregator and fans a `SendMsg(new_event)` command
out to every relay entry (no status check). Returns the caller-visible result
together with the pool events sent to the aggregator and the per-relay
commands enqueued. -/
def sendEvent (p : RelayPool) (ev : NostrEvent) :
    Except PoolError Unit × List RelayPoolEvent × List (String × RelayEvent) :=
  if p.relays.isEmpty then (Except.error PoolError.noRelaysConnected, [], [])
  else
    (Except.ok (), [RelayPoolEvent.eventSent ev],
      p.relays.map fun kv => (kv.1, RelayEvent.sendMsg (ClientMessage.newEvent ev)))

/-- `RelayPool::subscribe_relay` (relay.rs lines 421-433): when the URL is
tracked and its status is `Connected`, obtains the subscription channel for
the URL and enqueues a `REQ` carrying that channel and the current filters;
otherwise does nothing. -/
def subscribeRelay (p : RelayPool) (url : String) :
    RelayPool × List (String × ClientMessage) :=
  match hmFind p.relays url with
  | none => (p, [])
  | some relay =>
    if relay.status = RelayStatus.connected then
      let r := p.subscription.getChannel url
      ({ p with subscription := r.2 }, [(url, ClientMessage.newReq r.1 r.2.filters)])
    else (p, [])

/-- `RelayPool::unsubscribe_relay` (relay.rs lines 435-445): when the URL is
tracked, its status is `Connected` and a channel is tracked for it, removes
the channel and enqueues an explicit `CLOSE` message for that channel. -/
def unsubscribeRelay (p : RelayPool) (url : String) :
    RelayPool × List (String × ClientMessage) :=
  match hmFind p.relays url with
  | none => (p, [])
  | some relay =>
    if relay.status = RelayStatus.connected then
      let r := p.subscription.removeChannel url
      match r.1 with
      | some cid => ({ p with subscription := r.2 }, [(url, ClientMessage.close cid)])
      | none => (p, [])
    else (p, [])

/-- `RelayPool::connect_relay` (relay.rs lines 455-462): when the URL is
tracked, invokes `Relay::connect` on it — with no status guard — then runs
`subscribe_relay`. The transport outcome of `connect` is supplied at the
boundary by `ok`; `connect` leaves the relay `Connected` on success and
`Disconnected` on failure (the transient `Connecting` write is modelled by
`connectStatusWrites`). Returns the pool, the URLs on which `connect` was
invoked, and the subscription commands enqueued. -/
def connectRelay (ok : String → Bool) (p : RelayPool) (url : String) :
    RelayPool × List String × List (String × ClientMessage) :=
  match hmFind p.relays url with
  | none => (p, [], [])
  | some relay =>
    let relay' := { relay with
      status := if ok url then RelayStatus.connected else RelayStatus.disconnected }
    let p1 := { p with relays := (hmInsert p.relays url relay').2 }
    let r := subscribeRelay p1 url
    (r.1, [url], r.2)

/-- Iteration body of `RelayPool::connect_all`: walk the snapshot of the relay
map, calling `connect_relay` on the relays whose snapshot status is
`Disconnected`. -/
def connectAllGo (ok : String → Bool) :
    List (String × Relay) → RelayPool →
      RelayPool × List String × List (String × ClientMessage)
  | [], p => (p, [], [])
  | (url, relay) :: rest, p =>
    if relay.status = RelayStatus.disconnected then
      let r1 := connectRelay ok p url
      let r2 := connectAllGo ok rest r1.1
      (r2.1, r1.2.1 ++ r2.2.1, r1.2.2 ++ r2.2.2)
    else connectAllGo ok rest p

/-- `RelayPool::connect_all` (relay.rs lines 447-453): iterates over a clone
of the relay map and calls `connect_relay` exactly on those relays whose
status is `Disconnected`. -/
def connectAll (ok : String → Bool) (p : RelayPool) :
    RelayPool × List String × List (String × ClientMessage) :=
  connectAllGo ok p.relays p

/-- `RelayPool::disconnect_relay` (relay.rs lines 464-471): when the URL is
tracked, enqueues `RelayEvent::Close` to its actor (`Relay::disconnect`) and
then runs `unsubscribe_relay`. Returns the pool, the URLs whose actor received
the `Close` signal, and the client messages enqueued. -/
def disconnectRelay (p : RelayPool) (url : String) :
    RelayPool × List String × List (String × ClientMessage) :=
  match hmFind p.relays url with
  | none => (p, [], [])
  | some _ =>
    let r := unsubscribeRelay p url
    (r.1, [url], r.2)

/-- Boundary model of `crossbeam_channel::Sender::send` on a bounded channel,
per its documented semantics: the send errors exactly when the channel is
disconnected (every receiver dropped); a send into a full queue with a live
receiver blocks the caller until capacity frees; otherwise the message is
enqueued and the call returns. -/
inductive SendOutcome where
  | delivered
  | blocked
  | errDisconnected
  deriving DecidableEq, Repr

def crossbeamSend (queueLen capacity : Nat) (receiverAlive : Bool) : SendOutcome :=
  if receiverAlive = false then SendOutcome.errDisconnected
  else if capacity ≤ queueLen then SendOutcome.blocked
  else SendOutcome.delivered

/-- Capacity of a relay actor's command queue, `bounded::<RelayEvent>(32)` in
`Relay::new` (relay.rs line 49). -/
def relayQueueCapacity : Nat := 32

/-- What a caller of `Relay::send_msg` / `Relay::send_relay_event` (relay.rs
lines 206-219) observes for one send into the command queue. -/
inductive CallerOutcome where
  | returnsSilently
  | blocks
  deriving DecidableEq, Repr

/-- `Relay::send_relay_event` (relay.rs lines 211-219): the code matches the
result of `Sender::send`, logs an error and returns `()` — so an errored send
surfaces nothing to the caller — while a send into a full queue blocks the
caller inside `Sender::send` before any result exists. -/
def sendRelayEvent (queueLen : Nat) (receiverAlive : Bool) : CallerOutcome :=
  match crossbeamSend queueLen relayQueueCapacity receiverAlive with
  | SendOutcome.delivered => CallerOutcome.returnsSilently
  | SendOutcome.errDisconnected => CallerOutcome.returnsSilently
  | SendOutcome.blocked => CallerOutcome.blocks

/-- One wake-up of the writer loop's `select!` (relay.rs lines 92-115) at its
boundary: either a recv from the command queue delivered a command, or the
recv returned an error, or the 60-second keepalive fired together with the
outcome of the ping write. -/
inductive WriterStep where
  | recvOk (ev : RelayEvent)
  | recvErr
  | timeoutPing (ok : Bool)
  deriving DecidableEq, Repr

/-- Frames the writer loop writes to the websocket sink. -/
inductive WireFrame where
  | text (msg : ClientMessage)
  | ping
  | closeFrame
  deriving DecidableEq, Repr

/-- The writer loop of `Relay::connect` (`func_relay_event`, relay.rs lines
89-120) over a finite prefix of wake-ups: `SendMsg` writes a text frame (a
write error is only logged and the loop continues), `Close` attempts a
transport close and breaks, a recv error is skipped, a successful ping
continues, a failed ping breaks. Returns the frames written and whether the
loop exited within the prefix. -/
def writerLoopRun : List WriterStep → List WireFrame × Bool
  | [] => ([], false)
  | step :: rest =>
    match step with
    | WriterStep.recvOk (RelayEvent.sendMsg m) =>
      let r := writerLoopRun rest
      (WireFrame.text m :: r.1, r.2)
    | WriterStep.recvOk RelayEvent.close => ([WireFrame.closeFrame], true)
    | WriterStep.recvErr => writerLoopRun rest
    | WriterStep.timeoutPing true =>
      let r := writerLoopRun rest
      (WireFrame.ping :: r.1, r.2)
    | WriterStep.timeoutPing false => ([WireFrame.ping], true)

/-- The status write the writer task performs after its loop (relay.rs line
118): whenever the loop exits, status is set to `Disconnected`; while the loop
has not exited no write has happened yet. -/
def writerFinalStatus (steps : List WriterStep) : Option RelayStatus :=
  if (writerLoopRun steps).2 then some RelayStatus.disconnected else none

/-- The sequence of status writes `Relay::connect` itself performs (relay.rs
lines 75-200), keyed by the transport outcome: first `Connecting`, then
`Connected` on success or `Disconnected` on failure. -/
def connectStatusWrites (connectOk : Bool) : List RelayStatus :=
  RelayStatus.connecting ::
    (if connectOk then [RelayStatus.connected] else [RelayStatus.disconnected])

/-- Sample pools used by concrete witnesses and counterexamples. -/
def emptySubscription : Subscription := ⟨[], [], 0⟩

def poolA : RelayPool :=
  ⟨[("ws://a", ⟨"ws://a", RelayStatus.connected⟩)], emptySubscription⟩

def poolB : RelayPool :=
  ⟨[("ws://b", ⟨"ws://b", RelayStatus.disconnected⟩)], emptySubscription⟩

def poolSub : RelayPool :=
  ⟨[("ws://a", ⟨"ws://a", RelayStatus.connected⟩)], ⟨["f1"], [("ws://a", 7)], 8⟩⟩

def poolEmpty : RelayPool := ⟨[], emptySubscription⟩

theorem hmInsert_fst {V : Type} (m : List (String × V)) (k : String) (v : V) :
    (hmInsert m k v).1 = hmFind m k := by
  induction m with
  | nil => rfl
  | cons hd tl ih =>
    obtain ⟨k', v'⟩ := hd
    by_cases h : k' = k <;> simp [hmInsert, hmFind, h, ih]

theorem hmFind_insert_self {V : Type} (m : List (String × V)) (k : String) (v : V) :
    hmFind (hmInsert m k v).2 k = some v := by
  induction m with
  | nil => simp [hmInsert, hmFind]
  | cons hd tl ih =>
    obtain ⟨k', v'⟩ := hd
    by_cases h : k' = k <;> simp [hmInsert, hmFind, h, ih]

theorem processEvents_present (eid : String) :
    ∀ (rest : List (String × String × NostrEvent)) (s : RelayPoolTaskState),
    (hmFind s.events eid).isSome = true →
    (∀ p ∈ rest, (p.2.2 : NostrEvent).id = eid) →
    ∃ s', processEvents s
        (rest.map fun p => RelayPoolEvent.receivedMsg p.1 (RelayMessage.event p.2.1 p.2.2))
        = some (s', []) ∧ (hmFind s'.events eid).isSome = true := by
  intro rest
  induction rest with
  | nil => exact fun s hp _ => ⟨s, rfl, hp⟩
  | cons hd tl ih =>
    intro s hp hsame
    obtain ⟨u, sid, e⟩ := hd
    have hid : e.id = eid := hsame (u, sid, e) (List.mem_cons_self _ _)
    by_cases hv : e.sigValid
    · obtain ⟨w, hw⟩ := Option.isSome_iff_exists.mp hp
      have hold : (hmInsert s.events e.id e).1 = some w := by
        rw [hmInsert_fst, hid, hw]
      have hfind : (hmFind (hmInsert s.events e.id e).2 eid).isSome = true := by
        rw [← hid, hmFind_insert_self]; rfl
      obtain ⟨s', hs', hp'⟩ := ih ⟨(hmInsert s.events e.id e).2⟩ hfind
        (fun p hpmem => hsame p (by simp [hpmem]))
      refine ⟨s', ?_, hp'⟩
      simp only [List.map_cons, processEvents, handleMessage, hv, if_true, hold]
      simp [hs']
    · obtain ⟨s', hs', hp'⟩ := ih s hp (fun p hpmem => hsame p (by simp [hpmem]))
      refine ⟨s', ?_, hp'⟩
      simp only [List.map_cons, processEvents, handleMessage,
        Bool.not_eq_true] at hv ⊢
      simp [hv, hs']

/-- C1: a validly signed event E delivered to the aggregator via
`ReceivedMsg` from any number of relays in any order yields exactly one
`ReceivedEvent(E)` notification: the first delivery inserts E's identity into
the dedup cache and triggers the notification, and every later delivery of an
event with the same identity (from any relay, under any subscription id)
triggers none. -/
theorem dedup_exactly_once (E : NostrEvent) (u sid : String)
    (rest : List (String × String × NostrEvent)) (s : RelayPoolTaskState)
    (hvalid : E.sigValid = true)
    (habsent : hmFind s.events E.id = none)
    (hsame : ∀ p ∈ rest, (p.2.2 : NostrEvent).id = E.id) :
    (processEvents s (RelayPoolEvent.receivedMsg u (RelayMessage.event sid E) ::
        rest.map fun p => RelayPoolEvent.receivedMsg p.1 (RelayMessage.event p.2.1 p.2.2))).map
      Prod.snd = some [RelayPoolNotifications.receivedEvent E] := by
  have hold : (hmInsert s.events E.id E).1 = none := by rw [hmInsert_fst, habsent]
  have hfind : (hmFind (hmInsert s.events E.id E).2 E.id).isSome = true := by
    rw [hmFind_insert_self]; rfl
  obtain ⟨s', hs', _⟩ := processEvents_present E.id rest ⟨(hmInsert s.events E.id E).2⟩
    hfind hsame
  simp only [processEvents, handleMessage, hvalid, if_true, hold,
    Option.isNone_none, hs']
  rfl

/-- Witness for C1: two relays deliver the same valid event; exactly one
notification is emitted. -/
theorem dedup_exactly_once_witness :
    evA.sigValid = true ∧
    hmFind (RelayPoolTaskState.mk []).events evA.id = none ∧
    (processEvents ⟨[]⟩ (RelayPoolEvent.receivedMsg "ws://a" (RelayMessage.event "s0" evA) ::
        [("ws://b", "s1", evA)].map fun p =>
          RelayPoolEvent.receivedMsg p.1 (RelayMessage.event p.2.1 p.2.2))).map
      Prod.snd = some [RelayPoolNotifications.receivedEvent evA] :=
  ⟨rfl, rfl,
    dedup_exactly_once evA "ws://a" "s0" [("ws://b", "s1", evA)] ⟨[]⟩ rfl rfl
      (by simp)⟩

/-- C2: `EventSent(E)` (local publish echo) inserts E into the dedup cache
while emitting no notification, and a subsequent `ReceivedMsg` carrying the
same event E back from any relay produces zero notifications. -/
theorem local_echo_suppression (E : NostrEvent) (s : RelayPoolTaskState)
    (deliveries : List (String × String)) :
    (handleMessage s (RelayPoolEvent.eventSent E)).map Prod.snd = some [] ∧
    (handleMessage s (RelayPoolEvent.eventSent E)).map
      (fun r => hmFind r.1.events E.id) = some (some E) ∧
    (processEvents s (RelayPoolEvent.eventSent E :: deliveries.map fun p =>
        RelayPoolEvent.receivedMsg p.1 (RelayMessage.event p.2 E))).map
      Prod.snd = some [] := by
  refine ⟨rfl, ?_, ?_⟩
  · simp [handleMessage, hmFind_insert_self]
  · have hfind : (hmFind (hmInsert s.events E.id E).2 E.id).isSome = true := by
      rw [hmFind_insert_self]; rfl
    obtain ⟨s', hs', _⟩ := processEvents_present E.id
      (deliveries.map fun p => (p.1, p.2, E)) ⟨(hmInsert s.events E.id E).2⟩ hfind
      (by intro p hp; simp at hp; obtain ⟨a, b, -, rfl⟩ := hp; rfl)
    have hmap : (deliveries.map fun p => ((p.1 : String), (p.2 : String), E)).map
        (fun p => RelayPoolEvent.receivedMsg p.1 (RelayMessage.event p.2.1 p.2.2))
        = deliveries.map fun p => RelayPoolEvent.receivedMsg p.1 (RelayMessage.event p.2 E) := by
      rw [List.map_map]
      rfl
    rw [hmap] at hs'
    simp only [processEvents, handleMessage, hs']
    rfl

theorem purgeRetain_isSome_iff (pk : String) :
    ∀ l : List (String × NostrEvent),
    (purgeRetain pk l).isSome = true ↔
      ∀ kv ∈ l, (kv.2 : NostrEvent).pubkey ≠ pk → (kv.2 : NostrEvent).tags ≠ [] := by
  intro l
  induction l with
  | nil => simp [purgeRetain]
  | cons hd tl ih =>
    obtain ⟨k, v⟩ := hd
    by_cases h1 : v.pubkey = pk
    · simp [purgeRetain, h1, ih]
    · cases htags : v.tags with
      | nil =>
        simp only [purgeRetain, h1, ne_eq, not_false_iff, if_true, htags,
          Option.isSome_none, Bool.false_eq_true, false_iff]
        intro hcon
        exact hcon (k, v) (List.mem_cons_self _ _) h1 htags
      | cons t0 ts =>
        by_cases h2 : t0.content = pk
        · simp only [purgeRetain, h1, ne_eq, not_false_iff, if_true, htags, h2,
            not_true, if_false, ih]
          constructor
          · intro h kv hkv
            rcases List.mem_cons.mp hkv with rfl | hkv
            · intro _; simp [htags]
            · exact h kv hkv
          · intro h kv hkv; exact h kv (List.mem_cons_of_mem _ hkv)
        · cases hrec : purgeRetain pk tl with
          | none =>
            have htl : ¬ ∀ kv ∈ tl,
                (kv.2 : NostrEvent).pubkey ≠ pk → (kv.2 : NostrEvent).tags ≠ [] := by
              intro hall
              have hsome := ih.mpr hall
              rw [hrec] at hsome
              simp at hsome
            simp only [purgeRetain, h1, ne_eq, not_false_iff, if_true, htags, h2,
              if_true, hrec, Option.isSome_none, Bool.false_eq_true, false_iff]
            intro hcon
            exact htl fun kv hkv => hcon kv (List.mem_cons_of_mem _ hkv)
          | some rest' =>
            have htl := ih
            simp only [hrec, Option.isSome_some, true_iff] at htl
            simp only [purgeRetain, h1, ne_eq, not_false_iff, if_true, htags, h2,
              if_true, hrec, Option.isSome_some, true_iff]
            intro kv hkv
            rcases List.mem_cons.mp hkv with rfl | hkv
            · intro _; simp [htags]
            · exact htl kv hkv

theorem purgeRetain_some_eq_filter (pk : String) :
    ∀ l l' : List (String × NostrEvent), purgeRetain pk l = some l' →
      l' = l.filter fun kv => purgeKeep pk kv.2 := by
  intro l
  induction l with
  | nil =>
    intro l' h
    simp only [purgeRetain, Option.some_inj] at h
    simp [← h]
  | cons hd tl ih =>
    intro l' h
    obtain ⟨k, v⟩ := hd
    by_cases h1 : v.pubkey = pk
    · simp only [purgeRetain, h1, ne_eq, not_true, if_false] at h
      have hkeep : purgeKeep pk v = false := by simp [purgeKeep, h1]
      simp [List.filter_cons, hkeep, ih l' h]
    · cases htags : v.tags with
      | nil => simp [purgeRetain, h1, htags] at h
      | cons t0 ts =>
        by_cases h2 : t0.content = pk
        · simp only [purgeRetain, h1, ne_eq, not_false_iff, if_true, htags, h2,
            not_true, if_false] at h
          have hkeep : purgeKeep pk v = false := by simp [purgeKeep, htags, h2]
          simp [List.filter_cons, hkeep, ih l' h]
        · cases hrec : purgeRetain pk tl with
          | none => simp [purgeRetain, h1, htags, h2, hrec] at h
          | some rest' =>
            simp only [purgeRetain, h1, ne_eq, not_false_iff, if_true, htags, h2,
              if_true, hrec, Option.some_inj] at h
            have hkeep : purgeKeep pk v = true := by simp [purgeKeep, h1, htags, h2]
            simp [← h, List.filter_cons, hkeep, ih rest' hrec]

theorem hmFind_eq_none_of_forall_not_mem {V : Type} :
    ∀ (l : List (String × V)) (k : String), (∀ v, (k, v) ∉ l) → hmFind l k = none := by
  intro l
  induction l with
  | nil => intro k _; rfl
  | cons hd tl ih =>
    intro k h
    obtain ⟨k', v'⟩ := hd
    by_cases hk : k' = k
    · exact absurd (by simp [hk]) (h v')
    · simp only [hmFind, hk, if_false]
      exact ih k fun v hv => h v (List.mem_cons_of_mem _ hv)

theorem eq_of_mem_of_nodup_keys {V : Type} :
    ∀ (l : List (String × V)), (l.map Prod.fst).Nodup →
      ∀ (k : String) (a b : V), (k, a) ∈ l → (k, b) ∈ l → a = b := by
  intro l
  induction l with
  | nil => intro _ k a b ha _; simp at ha
  | cons hd tl ih =>
    intro hnd k a b ha hb
    obtain ⟨k', v'⟩ := hd
    obtain ⟨hhd, htl⟩ := List.nodup_cons.mp hnd
    rcases List.mem_cons.mp ha with ha | ha <;> rcases List.mem_cons.mp hb with hb | hb
    · simp only [Prod.mk.injEq] at ha hb
      exact ha.2.trans hb.2.symm
    · exfalso
      apply hhd
      rw [← ha]
      exact List.mem_map.mpr ⟨(k, b), hb, rfl⟩
    · exfalso
      apply hhd
      rw [← hb]
      exact List.mem_map.mpr ⟨(k, a), ha, rfl⟩
    · exact ih htl k a b ha hb

theorem purgeKeep_eq_true_iff (pk : String) (v : NostrEvent) :
    purgeKeep pk v = true ↔
      v.pubkey ≠ pk ∧ ∃ t0 ts, v.tags = t0 :: ts ∧ t0.content ≠ pk := by
  cases htags : v.tags with
  | nil => simp [purgeKeep, htags]
  | cons t0 ts =>
    simp only [purgeKeep, htags, Bool.and_eq_true, decide_eq_true_eq]
    constructor
    · rintro ⟨hpk, hc⟩
      exact ⟨hpk, t0, ts, rfl, hc⟩
    · rintro ⟨hpk, t0', ts', heq, hc⟩
      obtain ⟨rfl, rfl⟩ := List.cons.injEq .. ▸ heq
      exact ⟨hpk, hc⟩

/-- C8: when the aggregator completes `RemoveContactEvents(pk)` turning the
dedup cache into `l'`, then (1) no cached event is authored by pk, (2) no
cached event's first tag content equals pk, (3) every other cached event
remains, and (4) a re-received copy of a purged event (cached under its own id
in a duplicate-free cache, removed by the purge) is treated as new: its
delivery emits a `ReceivedEvent` notification again. -/
theorem purge_correct (pk : String) (s : RelayPoolTaskState)
    (l' : List (String × NostrEvent))
    (hnodup : (s.events.map Prod.fst).Nodup)
    (hcomplete : handleMessage s (RelayPoolEvent.removeContactEvents pk)
      = some (RelayPoolTaskState.mk l', [])) :
    (∀ kv ∈ l', (kv.2 : NostrEvent).pubkey ≠ pk)
    ∧ (∀ kv ∈ l', ∃ t0 ts, (kv.2 : NostrEvent).tags = t0 :: ts ∧ t0.content ≠ pk)
    ∧ (∀ kv ∈ s.events, (kv.2 : NostrEvent).pubkey ≠ pk →
        (∀ t0 ts, (kv.2 : NostrEvent).tags = t0 :: ts → t0.content ≠ pk) → kv ∈ l')
    ∧ (∀ (v : NostrEvent) (u sid : String), (v.id, v) ∈ s.events → (v.id, v) ∉ l' →
        v.sigValid = true →
        (handleMessage ⟨l'⟩ (RelayPoolEvent.receivedMsg u (RelayMessage.event sid v))).map
          Prod.snd = some [RelayPoolNotifications.receivedEvent v]) := by
  have hpr : purgeRetain pk s.events = some l' := by
    cases hr : purgeRetain pk s.events with
    | none =>
      simp only [handleMessage, hr] at hcomplete
      exact Option.noConfusion hcomplete
    | some e' =>
      simp only [handleMessage, hr, Option.some_inj, Prod.mk.injEq,
        RelayPoolTaskState.mk.injEq, and_true] at hcomplete
      rw [hcomplete]
  have hfilter : l' = s.events.filter fun kv => purgeKeep pk kv.2 :=
    purgeRetain_some_eq_filter pk s.events l' hpr
  have hmemf : ∀ kv ∈ l', purgeKeep pk kv.2 = true := by
    intro kv hkv
    rw [hfilter] at hkv
    exact (List.mem_filter.mp hkv).2
  refine ⟨?_, ?_, ?_, ?_⟩
  · intro kv hkv
    exact ((purgeKeep_eq_true_iff pk kv.2).mp (hmemf kv hkv)).1
  · intro kv hkv
    exact ((purgeKeep_eq_true_iff pk kv.2).mp (hmemf kv hkv)).2
  · intro kv hkv hpk htag
    have hne : (kv.2 : NostrEvent).tags ≠ [] := by
      have hiff := purgeRetain_isSome_iff pk s.events
      rw [hpr] at hiff
      exact (hiff.mp rfl) kv hkv hpk
    obtain ⟨t0, ts, htags⟩ : ∃ t0 ts, (kv.2 : NostrEvent).tags = t0 :: ts := by
      cases h : (kv.2 : NostrEvent).tags with
      | nil => exact absurd h hne
      | cons a b => exact ⟨a, b, rfl⟩
    rw [hfilter]
    exact List.mem_filter.mpr ⟨hkv,
      (purgeKeep_eq_true_iff pk kv.2).mpr ⟨hpk, t0, ts, htags, htag t0 ts htags⟩⟩
  · intro v u sid hvmem hvnot hsig
    have hnone : hmFind l' v.id = none := by
      apply hmFind_eq_none_of_forall_not_mem
      intro w hw
      have hwmem : (v.id, w) ∈ s.events := by
        rw [hfilter] at hw
        exact (List.mem_filter.mp hw).1
      have hwv : w = v := eq_of_mem_of_nodup_keys s.events hnodup v.id w v hwmem hvmem
      rw [hwv] at hw
      exact hvnot hw
    have hold : (hmInsert l' v.id v).1 = none := by rw [hmInsert_fst, hnone]
    simp only [handleMessage, hsig, if_true, hold]
    rfl

/-- Witness for C8: a three-event cache; the purge of pk-alice removes the
event authored by pk-alice and the event tagged pk-alice, keeps the third, and
re-receiving the purged author's event re-notifies. -/
theorem purge_correct_witness :
    (([("id-a", evA), ("id-b", evB), ("id-c", evC)].map Prod.fst).Nodup) ∧
    handleMessage (RelayPoolTaskState.mk [("id-a", evA), ("id-b", evB), ("id-c", evC)])
        (RelayPoolEvent.removeContactEvents "pk-alice")
      = some (RelayPoolTaskState.mk [("id-c", evC)], []) ∧
    ((∀ kv ∈ [("id-c", evC)], (kv.2 : NostrEvent).pubkey ≠ "pk-alice")
      ∧ (∀ kv ∈ [("id-c", evC)],
          ∃ t0 ts, (kv.2 : NostrEvent).tags = t0 :: ts ∧ t0.content ≠ "pk-alice")
      ∧ (∀ kv ∈ [("id-a", evA), ("id-b", evB), ("id-c", evC)],
          (kv.2 : NostrEvent).pubkey ≠ "pk-alice" →
          (∀ t0 ts, (kv.2 : NostrEvent).tags = t0 :: ts → t0.content ≠ "pk-alice") →
          kv ∈ [("id-c", evC)])
      ∧ (∀ (v : NostrEvent) (u sid : String),
          (v.id, v) ∈ [("id-a", evA), ("id-b", evB), ("id-c", evC)] →
          (v.id, v) ∉ [("id-c", evC)] → v.sigValid = true →
          (handleMessage ⟨[("id-c", evC)]⟩
              (RelayPoolEvent.receivedMsg u (RelayMessage.event sid v))).map
            Prod.snd = some [RelayPoolNotifications.receivedEvent v])) :=
  ⟨by decide, by decide,
    purge_correct "pk-alice" ⟨[("id-a", evA), ("id-b", evB), ("id-c", evC)]⟩
      [("id-c", evC)] (by decide) (by decide)⟩

/-- C10 counterexample: a cache holding a single zero-tag event authored by the
purged identity does not make the purge panic — the short-circuiting `&&`
skips `v.tags[0]` when `v.pubkey` already equals the purged key — so the purge
completes although a cached event has zero tags, refuting the claim that any
zero-tag cached event makes the purge panic. -/
theorem purge_panic_counterexample :
    ((RelayPoolTaskState.mk [("id-z", evNoTags)]).events.any
        fun kv => (kv.2 : NostrEvent).tags.isEmpty) = true ∧
    handleMessage (RelayPoolTaskState.mk [("id-z", evNoTags)])
        (RelayPoolEvent.removeContactEvents "pk-alice")
      = some (RelayPoolTaskState.mk [], []) := by
  decide

/-- C10 (amended): processing `RemoveContactEvents(pk)` completes iff every
cached event whose author key differs from pk has a non-empty tag list; a
zero-tag event with a differing author makes the unguarded `v.tags[0]` panic,
while a zero-tag event authored by pk is dropped before the index is
evaluated. -/
theorem purge_panic_condition (pk : String) (s : RelayPoolTaskState) :
    (handleMessage s (RelayPoolEvent.removeContactEvents pk)).isSome = true ↔
      ∀ kv ∈ s.events, (kv.2 : NostrEvent).pubkey ≠ pk →
        (kv.2 : NostrEvent).tags ≠ [] := by
  rw [← purgeRetain_isSome_iff]
  cases hr : purgeRetain pk s.events with
  | none => simp [handleMessage, hr]
  | some e' => simp [handleMessage, hr]

theorem hmFind_remove_self_of_nodup {V : Type} :
    ∀ l : List (String × V), (l.map Prod.fst).Nodup →
      ∀ k, hmFind (hmRemove l k) k = none := by
  intro l
  induction l with
  | nil => intro _ k; rfl
  | cons hd tl ih =>
    intro hnd k
    obtain ⟨k', v'⟩ := hd
    obtain ⟨hhd, htl⟩ := List.nodup_cons.mp hnd
    by_cases hk : k' = k
    · simp only [hmRemove, hk, if_true]
      apply hmFind_eq_none_of_forall_not_mem
      intro v hv
      exact hhd (hk ▸ List.mem_map.mpr ⟨(k, v), hv, rfl⟩)
    · simp only [hmRemove, hk, if_false, hmFind]
      exact ih htl k

theorem connectAllGo_mem (ok : String → Bool) :
    ∀ (l : List (String × Relay)) (p : RelayPool) (url : String),
      url ∈ (connectAllGo ok l p).2.1 →
        ∃ r : Relay, (url, r) ∈ l ∧ r.status = RelayStatus.disconnected := by
  intro l
  induction l with
  | nil => intro p url h; simp [connectAllGo] at h
  | cons hd tl ih =>
    intro p url h
    obtain ⟨u, relay⟩ := hd
    by_cases hst : relay.status = RelayStatus.disconnected
    · simp only [connectAllGo, hst, if_true] at h
      rcases List.mem_append.mp h with h | h
      · have huu : url = u := by
          cases hf : hmFind p.relays u with
          | none => simp [connectRelay, hf] at h
          | some relay2 => simpa [connectRelay, hf] using h
        exact ⟨relay, huu ▸ List.mem_cons_self _ _, hst⟩
      · obtain ⟨r, hr1, hr2⟩ := ih _ url h
        exact ⟨r, List.mem_cons_of_mem _ hr1, hr2⟩
    · simp only [connectAllGo, hst, if_false] at h
      obtain ⟨r, hr1, hr2⟩ := ih p url h
      exact ⟨r, List.mem_cons_of_mem _ hr1, hr2⟩

/-- C3 counterexample: on a pool already containing an entry for "ws://a"
(holding a Connected relay), `add_relay("ws://a")` does not return a
`DuplicateRelay` error (it succeeds), and it does not leave the entry
unchanged: the entry is replaced by a fresh `Disconnected` relay. -/
theorem add_relay_duplicate_counterexample :
    hmFind poolA.relays "ws://a" = some ⟨"ws://a", RelayStatus.connected⟩ ∧
    (addRelay poolA "ws://a").isOk = true ∧
    (addRelay poolA "ws://a").toOption.map (fun q => hmFind q.relays "ws://a")
      = some (some ⟨"ws://a", RelayStatus.disconnected⟩) := by
  decide

/-- C3 (amended): `add_relay` performs no duplicate check: for any pool and
parseable URL whose key is already present, it succeeds (no error) and
replaces the existing entry with a freshly constructed `Disconnected` relay. -/
theorem add_relay_overwrites (p : RelayPool) (url : String) (r0 : Relay)
    (hparse : urlParse url = some url)
    (_hpresent : hmFind p.relays url = some r0) :
    addRelay p url = Except.ok
      { p with relays := (hmInsert p.relays url ⟨url, RelayStatus.disconnected⟩).2 }
    ∧ hmFind ((hmInsert p.relays url (⟨url, RelayStatus.disconnected⟩ : Relay)).2) url
      = some ⟨url, RelayStatus.disconnected⟩ := by
  constructor
  · simp [addRelay, relayNew, hparse]
  · exact hmFind_insert_self ..

/-- Witness for C3 (amended) at the concrete duplicated pool. -/
theorem add_relay_overwrites_witness :
    urlParse "ws://a" = some "ws://a" ∧
    hmFind poolA.relays "ws://a" = some ⟨"ws://a", RelayStatus.connected⟩ ∧
    (addRelay poolA "ws://a" = Except.ok
        { poolA with relays :=
            (hmInsert poolA.relays "ws://a" ⟨"ws://a", RelayStatus.disconnected⟩).2 }
      ∧ hmFind ((hmInsert poolA.relays "ws://a"
          (⟨"ws://a", RelayStatus.disconnected⟩ : Relay)).2) "ws://a"
        = some ⟨"ws://a", RelayStatus.disconnected⟩) :=
  ⟨by decide, by decide,
    add_relay_overwrites poolA "ws://a" ⟨"ws://a", RelayStatus.connected⟩
      (by decide) (by decide)⟩

/-- C4 counterexample: `connect_relay` on a relay whose current status is
`Connected` still invokes `connect()` on it, refuting the claim that the
connect attempt is made only on `Disconnected` connections. -/
theorem connect_relay_status_counterexample :
    hmFind poolA.relays "ws://a" = some ⟨"ws://a", RelayStatus.connected⟩ ∧
    (connectRelay (fun _ => true) poolA "ws://a").2.1 = ["ws://a"] := by
  decide

/-- C4 (amended): `connect_all` invokes `connect()` only on relays whose
status (in the iterated snapshot) is `Disconnected`, while `connect_relay`
invokes `connect()` on any tracked URL regardless of its status. -/
theorem connect_only_disconnected_amended :
    (∀ (ok : String → Bool) (p : RelayPool) (url : String),
      url ∈ (connectAll ok p).2.1 →
        ∃ r : Relay, (url, r) ∈ p.relays ∧ r.status = RelayStatus.disconnected)
    ∧ (∀ (ok : String → Bool) (p : RelayPool) (url : String) (r : Relay),
        hmFind p.relays url = some r → (connectRelay ok p url).2.1 = [url]) := by
  constructor
  · intro ok p url h
    exact connectAllGo_mem ok p.relays p url h
  · intro ok p url r hfound
    simp [connectRelay, hfound]

/-- Witness for C4 (amended): `connect_all` on a pool with one Disconnected
relay connects it; `connect_relay` on a Connected relay still connects. -/
theorem connect_only_disconnected_amended_witness :
    "ws://b" ∈ (connectAll (fun _ => true) poolB).2.1 ∧
    (∃ r : Relay, ("ws://b", r) ∈ poolB.relays ∧ r.status = RelayStatus.disconnected) ∧
    hmFind poolA.relays "ws://a" = some ⟨"ws://a", RelayStatus.connected⟩ ∧
    (connectRelay (fun _ => true) poolA "ws://a").2.1 = ["ws://a"] :=
  ⟨by decide,
    connect_only_disconnected_amended.1 (fun _ => true) poolB "ws://b" (by decide),
    by decide,
    connect_only_disconnected_amended.2 (fun _ => true) poolA "ws://a"
      ⟨"ws://a", RelayStatus.connected⟩ (by decide)⟩

/-- C5 counterexample: `disconnect_relay` on a Connected relay with a tracked
subscription channel sends an explicit close-subscription (`CLOSE`) command
for that channel, refuting "without sending any explicit close-subscription
(unsubscribe) command to the relay". -/
theorem disconnect_sends_close_counterexample :
    hmFind poolSub.relays "ws://a" = some ⟨"ws://a", RelayStatus.connected⟩ ∧
    hmFind poolSub.subscription.channels "ws://a" = some 7 ∧
    (disconnectRelay poolSub "ws://a").2.2 = [("ws://a", ClientMessage.close 7)] := by
  decide

/-- C5 (amended): for every tracked relay URL, `disconnect_relay` enqueues the
graceful `Close` signal to the relay actor; then, if the relay's status is
`Connected` and a subscription channel is tracked for the URL (in a
duplicate-free channel map), it sends an explicit close-subscription command
for that channel and removes the tracking; if the status is not `Connected`,
no message is sent and the tracked channel, if any, is left in place. -/
theorem disconnect_relay_amended (p : RelayPool) (url : String) (r : Relay)
    (hnodup : (p.subscription.channels.map Prod.fst).Nodup)
    (hfound : hmFind p.relays url = some r) :
    (disconnectRelay p url).2.1 = [url]
    ∧ (r.status = RelayStatus.connected →
        ∀ cid, hmFind p.subscription.channels url = some cid →
          (disconnectRelay p url).2.2 = [(url, ClientMessage.close cid)]
          ∧ hmFind (disconnectRelay p url).1.subscription.channels url = none)
    ∧ (r.status ≠ RelayStatus.connected →
        (disconnectRelay p url).2.2 = [] ∧ (disconnectRelay p url).1 = p) := by
  refine ⟨?_, ?_, ?_⟩
  · simp [disconnectRelay, hfound]
  · intro hst cid hcid
    have hrem : p.subscription.removeChannel url
        = (some cid, { p.subscription with channels := hmRemove p.subscription.channels url }) := by
      simp [Subscription.removeChannel, hcid]
    constructor
    · simp [disconnectRelay, hfound, unsubscribeRelay, hst, hrem]
    · simp only [disconnectRelay, hfound, unsubscribeRelay, hst, if_true, hrem]
      exact hmFind_remove_self_of_nodup p.subscription.channels hnodup url
  · intro hst
    constructor
    · simp [disconnectRelay, hfound, unsubscribeRelay, hst]
    · simp [disconnectRelay, hfound, unsubscribeRelay, hst]

/-- Witness for C5 (amended) at the concrete Connected pool with a tracked
channel. -/
theorem disconnect_relay_amended_witness :
    (poolSub.subscription.channels.map Prod.fst).Nodup ∧
    hmFind poolSub.relays "ws://a" = some ⟨"ws://a", RelayStatus.connected⟩ ∧
    ((disconnectRelay poolSub "ws://a").2.1 = ["ws://a"]
      ∧ ((⟨"ws://a", RelayStatus.connected⟩ : Relay).status = RelayStatus.connected →
          ∀ cid, hmFind poolSub.subscription.channels "ws://a" = some cid →
            (disconnectRelay poolSub "ws://a").2.2 = [("ws://a", ClientMessage.close cid)]
            ∧ hmFind (disconnectRelay poolSub "ws://a").1.subscription.channels "ws://a"
              = none)
      ∧ ((⟨"ws://a", RelayStatus.connected⟩ : Relay).status ≠ RelayStatus.connected →
          (disconnectRelay poolSub "ws://a").2.2 = []
          ∧ (disconnectRelay poolSub "ws://a").1 = poolSub)) :=
  ⟨by decide, by decide,
    disconnect_relay_amended poolSub "ws://a" ⟨"ws://a", RelayStatus.connected⟩
      (by decide) (by decide)⟩

/-- C6 counterexample: a send into a full command queue (32 pending commands,
capacity 32, a receiver still alive) blocks the caller inside `Sender::send`
instead of failing silently, refuting "never blocking the caller" for the
full-queue case. -/
theorem send_full_queue_counterexample :
    relayQueueCapacity = 32 ∧
    sendRelayEvent 32 true = CallerOutcome.blocks := by
  decide

/-- C6 (amended): `send_msg` / `send_relay_event` never surfaces an error to
the caller: a send on a disconnected channel (every receiver dropped) is
logged and the call returns silently, and a send into a non-full queue returns
silently; but a send into a full queue with a live receiver blocks the caller
until capacity frees instead of failing silently. -/
theorem send_silent_amended :
    (∀ n : Nat, sendRelayEvent n false = CallerOutcome.returnsSilently)
    ∧ (∀ n : Nat, n < relayQueueCapacity →
        sendRelayEvent n true = CallerOutcome.returnsSilently)
    ∧ (∀ n : Nat, relayQueueCapacity ≤ n →
        sendRelayEvent n true = CallerOutcome.blocks) := by
  refine ⟨fun n => rfl, fun n h => ?_, fun n h => ?_⟩
  · simp [sendRelayEvent, crossbeamSend, Nat.not_le.mpr h]
  · simp [sendRelayEvent, crossbeamSend, h]

/-- Witness for C6 (amended) at queue lengths 0 (disconnected), 5 (room) and
32 (full). -/
theorem send_silent_amended_witness :
    sendRelayEvent 0 false = CallerOutcome.returnsSilently ∧
    (5 < relayQueueCapacity ∧ sendRelayEvent 5 true = CallerOutcome.returnsSilently) ∧
    (relayQueueCapacity ≤ 32 ∧ sendRelayEvent 32 true = CallerOutcome.blocks) :=
  ⟨send_silent_amended.1 0,
    ⟨by decide, send_silent_amended.2.1 5 (by decide)⟩,
    ⟨by decide, send_silent_amended.2.2 32 (by decide)⟩⟩

/-- C7: `send_event` on a pool whose relay map is empty returns the
"No relay connected" error having sent nothing to the aggregator and nothing
to any relay; on a non-empty map it never returns that error (no status is
consulted), reports `EventSent` to the aggregator and fans out to every relay
entry. -/
theorem publish_empty_pool (p : RelayPool) (ev : NostrEvent) :
    (p.relays = [] →
      sendEvent p ev = (Except.error PoolError.noRelaysConnected, [], []))
    ∧ (p.relays ≠ [] →
        (sendEvent p ev).1 = Except.ok ()
        ∧ (sendEvent p ev).2.1 = [RelayPoolEvent.eventSent ev]
        ∧ (sendEvent p ev).2.2
          = p.relays.map fun kv => (kv.1, RelayEvent.sendMsg (ClientMessage.newEvent ev))) := by
  constructor
  · intro h
    simp [sendEvent, h]
  · intro h
    have hne : p.relays.isEmpty = false := by
      cases hp : p.relays with
      | nil => exact absurd hp h
      | cons a l => rfl
    refine ⟨?_, ?_, ?_⟩ <;> simp [sendEvent, hne]

/-- Witness for C7: the empty pool errors with nothing sent; a one-relay pool
(whose sole relay is not even Connected) succeeds. -/
theorem publish_empty_pool_witness :
    (poolEmpty.relays = []
      ∧ sendEvent poolEmpty evA = (Except.error PoolError.noRelaysConnected, [], []))
    ∧ (poolB.relays ≠ [] ∧ (sendEvent poolB evA).1 = Except.ok ()) :=
  ⟨⟨rfl, (publish_empty_pool poolEmpty evA).1 rfl⟩,
    ⟨by decide, ((publish_empty_pool poolB evA).2 (by decide)).1⟩⟩

/-- C9: the status type has exactly the three values `Disconnected`,
`Connecting`, `Connected`; `connect()` writes `Connecting` first; a failed
connect attempt's last status write is `Disconnected` (never resting in
`Connecting`); and whenever the writer loop exits, the status written after
the loop is `Disconnected`. -/
theorem status_machine :
    (∀ st : RelayStatus, st = RelayStatus.disconnected ∨ st = RelayStatus.connecting
      ∨ st = RelayStatus.connected)
    ∧ (∀ ok : Bool, (connectStatusWrites ok).head? = some RelayStatus.connecting)
    ∧ (connectStatusWrites false).getLast? = some RelayStatus.disconnected
    ∧ (∀ steps : List WriterStep, (writerLoopRun steps).2 = true →
        writerFinalStatus steps = some RelayStatus.disconnected) := by
  refine ⟨?_, ?_, by decide, ?_⟩
  · intro st
    cases st
    · exact Or.inl rfl
    · exact Or.inr (Or.inr rfl)
    · exact Or.inr (Or.inl rfl)
  · intro ok
    cases ok <;> rfl
  · intro steps h
    simp [writerFinalStatus, h]

/-- Witness for C9: a writer loop that receives a `Close` command exits, and
the final status write is `Disconnected`. -/
theorem status_machine_witness :
    (writerLoopRun [WriterStep.recvOk RelayEvent.close]).2 = true ∧
    writerFinalStatus [WriterStep.recvOk RelayEvent.close] = some RelayStatus.disconnected :=
  ⟨by decide,
    status_machine.2.2.2 [WriterStep.recvOk RelayEvent.close] (by decide)⟩

end NostrSdkRelay
